import Mathlib

/-!
Shallow embedding of the perpetual-futures valuation and crank-assembly
subsystem of the mango-explorer repository.

Python `Decimal` values are embedded as exact rationals (`ℚ`): the code under
verification performs exact decimal arithmetic and every operation it uses
(addition, multiplication, division by powers of ten) is exact on rationals.
Fallible code (code that can raise) is embedded as `Except String _`.

Source files embedded directly: `mango/perpaccount.py`, `mango/perpmarket.py`,
`mango/marketmaking/orderchain/roundtolotsizeelement.py`.  Collaborator
classes that those files use but whose sources are not part of the repository
snapshot (`lotsizeconverter.py`, `token.py`, `orders.py`, `publickey.py`,
`perpeventqueue.py`, `instructions.py`, `perpopenorders.py`, `cache.py`) are
modelled from the specification and marked `Modelled from the spec:` below.
-/

/-- On-chain account addresses.  Modelled from the spec (`publickey.py` is not
part of the sources): an address is an opaque identifier with decidable
equality and a canonical byte encoding; we model it as a natural number. -/
abbrev PublicKey := ℕ

/-- Modelled from the spec (`publickey.py` is not part of the sources): the
canonical byte-encoding of an address, used only as a deterministic sort key.
On the natural-number model the encoding is the address itself. -/
def encode_public_key_for_sorting (address : PublicKey) : ℕ := address

/-- Ordering of addresses by their canonical byte-encoding, the comparison
used by `build_crank_instructions` when it sorts the truncated address list. -/
def sortKeyLe (a b : PublicKey) : Prop :=
  encode_public_key_for_sorting a ≤ encode_public_key_for_sorting b

instance : DecidableRel sortKeyLe :=
  fun a b => inferInstanceAs (Decidable (_ ≤ _))

/-- Modelled from the spec (`token.py` is not part of the sources): an
immutable description of a tradeable asset - symbol and decimal precision. -/
structure Instrument where
  symbol : String
  decimals : ℕ
deriving DecidableEq

/-- Modelled from the spec (`token.py` is not part of the sources):
`shift_to_decimals(raw) -> decimal_value`, the fixed-point shift from raw
on-chain integers to human-scaled values: division by `10 ^ decimals`,
exact on rationals. -/
def Instrument.shift_to_decimals (i : Instrument) (value : ℚ) : ℚ :=
  value / 10 ^ i.decimals

/-- Modelled from the spec (`lotsizeconverter.py` is not part of the
sources): fixed-point scaling between raw integer lot units and human-scaled
decimal quantities for a base/quote instrument pair. -/
structure LotSizeConverter where
  base : Instrument
  base_lot_size : ℚ
  quote : Instrument
  quote_lot_size : ℚ
deriving DecidableEq

/-- Modelled from the spec: rescales a value from the base instrument's
decimal scale to the quote instrument's decimal scale (exact on rationals,
covering both branches of the original's decimals comparison). -/
def LotSizeConverter.adjust_to_quote_decimals (c : LotSizeConverter) (value : ℚ) : ℚ :=
  value * 10 ^ c.quote.decimals / 10 ^ c.base.decimals

/-- Modelled from the spec: converts a raw base lot count to a human-scaled
base quantity. -/
def LotSizeConverter.base_size_lots_to_number (c : LotSizeConverter) (size_lots : ℚ) : ℚ :=
  size_lots * c.base_lot_size / 10 ^ c.base.decimals

/-- Modelled from the spec: quote lots per base lot, expressed at human
scale - the price of one base lot in quote units. -/
def LotSizeConverter.lot_size (c : LotSizeConverter) : ℚ :=
  c.quote_lot_size / c.base_lot_size * 10 ^ c.base.decimals / 10 ^ c.quote.decimals

/-- Modelled from the spec: `round_base` returns the largest multiple of the
base lot size (expressed at the base instrument's decimal precision) that
does not exceed the input. -/
def LotSizeConverter.round_base (c : LotSizeConverter) (quantity : ℚ) : ℚ :=
  let lot : ℚ := c.base_lot_size / 10 ^ c.base.decimals
  lot * ⌊quantity / lot⌋

/-- Modelled from the spec: `round_quote` returns the largest multiple of the
quote lot size (expressed at the quote instrument's decimal precision) that
does not exceed the input. -/
def LotSizeConverter.round_quote (c : LotSizeConverter) (price : ℚ) : ℚ :=
  let lot : ℚ := c.quote_lot_size / 10 ^ c.quote.decimals
  lot * ⌊price / lot⌋

/-- Modelled from the spec (`cache.py` is not part of the sources): the
funding accumulators published by the oracle-cache instruction, a read-only
input to valuation. -/
structure PerpMarketCache where
  long_funding : ℚ
  short_funding : ℚ
deriving DecidableEq

/-- Modelled from the spec (`perpopenorders.py` is not part of the sources):
the sub-entity enumerating a perp account's resting order slots; we record
just the list of occupied slots. -/
structure PerpOpenOrders where
  orders : List ℕ
deriving DecidableEq

/-- Modelled from the spec: a `PerpOpenOrders` is empty when it has no
resting order slots. -/
def PerpOpenOrders.empty (o : PerpOpenOrders) : Bool :=
  o.orders.isEmpty

/-- Embeds `PerpAccount.__init__` (mango/perpaccount.py): a trader's
perpetual position snapshot.  `mngo_accrued_value` is the `.value` of the
`mngo_accrued` `InstrumentValue`. -/
structure PerpAccount where
  base_position : ℚ
  quote_position : ℚ
  long_settled_funding : ℚ
  short_settled_funding : ℚ
  bids_quantity : ℚ
  asks_quantity : ℚ
  taker_base : ℚ
  taker_quote : ℚ
  mngo_accrued_value : ℚ
  open_orders : PerpOpenOrders
  lot_size_converter : LotSizeConverter
deriving DecidableEq

/-- Embeds `PerpAccount.empty` (mango/perpaccount.py lines 73-77). -/
def PerpAccount.empty (a : PerpAccount) : Bool :=
  if a.base_position = 0 ∧ a.quote_position = 0 ∧ a.long_settled_funding = 0 ∧
      a.short_settled_funding = 0 ∧ a.mngo_accrued_value = 0 ∧
      a.open_orders.empty = true then
    true
  else
    false

/-- Embeds `PerpAccount.unsettled_funding` (mango/perpaccount.py lines
79-86). -/
def PerpAccount.unsettled_funding (a : PerpAccount) (perp_market_cache : PerpMarketCache) : ℚ :=
  let unsettled : ℚ :=
    (if a.base_position < 0 then
      a.base_position * (perp_market_cache.short_funding - a.short_settled_funding)
    else
      a.base_position * (perp_market_cache.long_funding - a.long_settled_funding));
  - a.lot_size_converter.quote.shift_to_decimals unsettled

/-- Embeds `PerpAccount.asset_value` (mango/perpaccount.py lines 88-100). -/
def PerpAccount.asset_value (a : PerpAccount) (perp_market_cache : PerpMarketCache)
    (price : ℚ) : ℚ :=
  let base_position : ℚ := a.lot_size_converter.adjust_to_quote_decimals a.base_position
  let value : ℚ :=
    if base_position > 0 then
      a.lot_size_converter.quote.shift_to_decimals
        (base_position * a.lot_size_converter.base_lot_size * price)
    else
      0
  let quote_position : ℚ :=
    a.lot_size_converter.quote.shift_to_decimals a.quote_position
      + a.unsettled_funding perp_market_cache
  if quote_position > 0 then value + quote_position else value

/-- Embeds `PerpAccount.liability_value` (mango/perpaccount.py lines
102-114). -/
def PerpAccount.liability_value (a : PerpAccount) (perp_market_cache : PerpMarketCache)
    (price : ℚ) : ℚ :=
  let base_position : ℚ := a.lot_size_converter.adjust_to_quote_decimals a.base_position
  let value : ℚ :=
    if base_position < 0 then
      a.lot_size_converter.quote.shift_to_decimals
        (base_position * a.lot_size_converter.base_lot_size * price)
    else
      0
  let quote_position : ℚ :=
    a.lot_size_converter.quote.shift_to_decimals a.quote_position
      + a.unsettled_funding perp_market_cache
  if quote_position < 0 then value + quote_position else value

/-- Embeds `PerpAccount.current_value` (mango/perpaccount.py lines 116-125).
Note the final `shift_to_decimals` applied to the whole sum. -/
def PerpAccount.current_value (a : PerpAccount) (perp_market_cache : PerpMarketCache)
    (price : ℚ) : ℚ :=
  let base_position : ℚ := a.lot_size_converter.adjust_to_quote_decimals a.base_position
  let value : ℚ := base_position * a.lot_size_converter.base_lot_size * price
  let quote_position : ℚ :=
    a.lot_size_converter.quote.shift_to_decimals a.quote_position
      + a.unsettled_funding perp_market_cache
  a.lot_size_converter.quote.shift_to_decimals (value + quote_position)

/-- Modelled from the spec (`orders.py` is not part of the sources): an
immutable order value; `client_id` stands for all fields other than price and
quantity, which `with_update` copies through unchanged. -/
structure Order where
  price : ℚ
  quantity : ℚ
  client_id : ℕ
deriving DecidableEq

/-- Modelled from the spec: `with_update(price=...)` produces a modified
copy; the original is never mutated. -/
def Order.with_update_price (o : Order) (price : ℚ) : Order :=
  { o with price := price }

/-- Modelled from the spec: `with_update(quantity=...)` produces a modified
copy; the original is never mutated. -/
def Order.with_update_quantity (o : Order) (quantity : ℚ) : Order :=
  { o with quantity := quantity }

/-- Embeds `RoundToLotSizeElement.process`
(mango/marketmaking/orderchain/roundtolotsizeelement.py lines 44-79).  The
market's lot size converter (reached through `model_state.market`) is passed
as `c`. -/
def RoundToLotSizeElement.process (c : LotSizeConverter) (orders : List Order) : List Order :=
  orders.foldl
    (fun new_orders order =>
      let new_price : ℚ := c.round_quote order.price
      let new_quantity : ℚ := c.round_base order.quantity
      let new_order : Order :=
        (order.with_update_price new_price).with_update_quantity new_quantity
      if new_order.price = 0 ∨ new_order.quantity = 0 then
        new_orders
      else if order.price ≠ new_order.price ∨ order.quantity ≠ new_order.quantity then
        new_orders ++ [new_order]
      else
        new_orders ++ [order])
    []

/-- Modelled from the spec (`perpeventqueue.py` is not part of the sources):
a market event is a tagged variant, `Fill` or `Out`, each exposing the
accounts that must be included in a consume-events instruction. -/
inductive PerpEvent where
  | fill (accounts_touched : List PublicKey)
  | out (accounts_touched : List PublicKey)
deriving DecidableEq

/-- Modelled from the spec: the `accounts_to_crank` capability shared by both
event variants. -/
def PerpEvent.accounts_to_crank : PerpEvent → List PublicKey
  | .fill accounts_touched => accounts_touched
  | .out accounts_touched => accounts_touched

/-- Modelled from the spec (`perpmarketdetails.py` is not part of the
sources): the loaded on-chain details of a perp market; only the lot sizes
matter to the embedded code. -/
structure PerpMarketDetails where
  base_lot_size : ℚ
  quote_lot_size : ℚ
deriving DecidableEq

/-- Embeds the `PerpMarket` state needed by the instruction builders.  The
original types `underlying_perp_market` as always-present, but the builders
explicitly test it against `None`; the `Option` captures the absent case. -/
structure PerpMarket where
  symbol : String
  underlying_perp_market : Option PerpMarketDetails
deriving DecidableEq

/-- Modelled from the spec (`instructions.py` is not part of the sources):
the instruction variants the embedded builders construct, carrying the
arguments the builders compute. -/
inductive MangoInstruction where
  | consumeEvents (addresses : List PublicKey) (limit : ℚ)
  | cancelPerpOrder (client_id : ℕ) (ok_if_missing : Bool)
  | placePerpOrder (price : ℚ) (quantity : ℚ) (client_id : ℕ)
  | cancelAllPerpOrders (limit : ℚ)
  | redeemAccruedMango
deriving DecidableEq

/-- Modelled from the spec: `CombinableInstructions` is an ordered batch of
chainable instructions. -/
abbrev CombinableInstructions := List MangoInstruction

/-- Modelled from the spec: `CombinableInstructions.empty()`. -/
def CombinableInstructions.empty : CombinableInstructions := []

/-- Embeds Python's `int(...)` on a `Decimal`: truncation toward zero. -/
def pythonInt (q : ℚ) : ℤ :=
  if q < 0 then -⌊-q⌋ else ⌊q⌋

/-- Embeds Python's slice `l[0:n]`, including the negative-index case. -/
def pythonSliceTo {α : Type} (n : ℤ) (l : List α) : List α :=
  if 0 ≤ n then l.take n.toNat else l.take (l.length - (-n).toNat)

/-- Embeds the dedup loop of `build_crank_instructions` (mango/perpmarket.py
lines 346-349): starting from `[self.account.address]`, append each address
not already present, preserving first-seen order. -/
def crank_distinct_addresses (account_address : PublicKey)
    (addresses : List PublicKey) : List PublicKey :=
  addresses.foldl
    (fun distinct address => if address ∈ distinct then distinct else distinct ++ [address])
    [account_address]

/-- Embeds the truncate-then-sort steps of `build_crank_instructions`
(mango/perpmarket.py lines 351-359): slice the distinct list to
`min(int(limit), len(distinct_addresses))`, then sort by the canonical
byte-encoding of each address. -/
def crank_limited_addresses (account_address : PublicKey)
    (addresses : List PublicKey) (limit : ℚ) : List PublicKey :=
  let distinct := crank_distinct_addresses account_address addresses
  let limited := pythonSliceTo (min (pythonInt limit) (distinct.length : ℤ)) distinct
  List.insertionSort sortKeyLe limited

/-- Embeds the state of `PerpMarketInstructionBuilder`
(mango/perpmarket.py lines 268-295) that its `build_*` methods consult:
the perp market and the invoking account's address. -/
structure PerpMarketInstructionBuilder where
  perp_market : PerpMarket
  account_address : PublicKey
deriving DecidableEq

/-- Embeds `PerpMarketInstructionBuilder.build_cancel_order_instructions`
(mango/perpmarket.py lines 297-311): raises when the underlying market
details are absent, otherwise hands off to
`build_cancel_perp_order_instructions` (modelled from the spec as
constructing the cancel instruction). -/
def PerpMarketInstructionBuilder.build_cancel_order_instructions
    (b : PerpMarketInstructionBuilder) (order : Order) (ok_if_missing : Bool) :
    Except String CombinableInstructions :=
  match b.perp_market.underlying_perp_market with
  | none => .error ("PerpMarket " ++ b.perp_market.symbol ++ " has not been loaded.")
  | some _ => .ok [MangoInstruction.cancelPerpOrder order.client_id ok_if_missing]

/-- Embeds `PerpMarketInstructionBuilder.build_place_order_instructions`
(mango/perpmarket.py lines 313-333): raises when the underlying market
details are absent, otherwise hands off to
`build_place_perp_order_instructions` (modelled from the spec). -/
def PerpMarketInstructionBuilder.build_place_order_instructions
    (b : PerpMarketInstructionBuilder) (order : Order) :
    Except String CombinableInstructions :=
  match b.perp_market.underlying_perp_market with
  | none => .error ("PerpMarket " ++ b.perp_market.symbol ++ " has not been loaded.")
  | some _ => .ok [MangoInstruction.placePerpOrder order.price order.quantity order.client_id]

/-- Embeds `PerpMarketInstructionBuilder.build_crank_instructions`
(mango/perpmarket.py lines 338-370): raises when the underlying market
details are absent, otherwise dedups, truncates and sorts the addresses and
hands off to `build_mango_consume_events_instructions` (modelled from the
spec as constructing the consume-events instruction over exactly those
addresses). -/
def PerpMarketInstructionBuilder.build_crank_instructions
    (b : PerpMarketInstructionBuilder) (addresses : List PublicKey) (limit : ℚ) :
    Except String CombinableInstructions :=
  match b.perp_market.underlying_perp_market with
  | none => .error ("PerpMarket " ++ b.perp_market.symbol ++ " has not been loaded.")
  | some _ =>
      .ok [MangoInstruction.consumeEvents
            (crank_limited_addresses b.account_address addresses limit) limit]

/-- Embeds `PerpMarketInstructionBuilder.build_redeem_instructions`
(mango/perpmarket.py lines 372-380): hands off directly to
`build_redeem_accrued_mango_instructions` (modelled from the spec) with no
check of the underlying market details. -/
def PerpMarketInstructionBuilder.build_redeem_instructions
    (b : PerpMarketInstructionBuilder) : Except String CombinableInstructions :=
  .ok [MangoInstruction.redeemAccruedMango]

/-- Embeds `PerpMarketInstructionBuilder.build_cancel_all_orders_instructions`
(mango/perpmarket.py lines 382-395): raises when the underlying market
details are absent, otherwise hands off to
`build_cancel_all_perp_orders_instructions` (modelled from the spec). -/
def PerpMarketInstructionBuilder.build_cancel_all_orders_instructions
    (b : PerpMarketInstructionBuilder) (limit : ℚ) :
    Except String CombinableInstructions :=
  match b.perp_market.underlying_perp_market with
  | none => .error ("PerpMarket " ++ b.perp_market.symbol ++ " has not been loaded.")
  | some _ => .ok [MangoInstruction.cancelAllPerpOrders limit]

/-- Embeds `PerpMarketOperations._build_crank` (mango/perpmarket.py lines
500-518).  The unprocessed events of the market (fetched through
`perp_market.unprocessed_events` in the original) are passed as `events`. -/
def PerpMarketOperations.build_crank (b : PerpMarketInstructionBuilder)
    (events : List PerpEvent) (add_self : Bool) (limit : ℚ) :
    Except String CombinableInstructions :=
  let accounts_to_crank : List PublicKey :=
    events.foldl (fun accounts event_to_crank => accounts ++ event_to_crank.accounts_to_crank) []
  let accounts_to_crank : List PublicKey :=
    if add_self then accounts_to_crank ++ [b.account_address] else accounts_to_crank
  if accounts_to_crank.length = 0 then
    .ok CombinableInstructions.empty
  else
    b.build_crank_instructions accounts_to_crank limit

/-- Embeds the funding-statistics snapshot consumed by
`FundingRate.from_stats_data`: the fields of the stats dictionary that the
code reads (the `time` field, which only feeds the reported timestamps, is
omitted from the model). -/
structure PerpStats where
  shortFunding : ℚ
  longFunding : ℚ
  baseOraclePrice : ℚ
  openInterest : ℚ
deriving DecidableEq

/-- Embeds the `FundingRate` dataclass (mango/perpmarket.py lines 67-74),
without the `from_`/`to` timestamps. -/
structure FundingRate where
  symbol : String
  rate : ℚ
  oracle_price : ℚ
  open_interest : ℚ
deriving DecidableEq

/-- Embeds `FundingRate.from_stats_data` (mango/perpmarket.py lines 76-117).
The division by `base_price_in_base_lots` raises `DivisionByZero` in Python
when the divisor is zero; that is the error case here.  Note the code first
computes the average oracle price and then overwrites it with the newest
price. -/
def FundingRate.from_stats_data (symbol : String) (lot_size_converter : LotSizeConverter)
    (oldest_stats newest_stats : PerpStats) : Except String FundingRate :=
  let oldest_short_funding := oldest_stats.shortFunding
  let oldest_long_funding := oldest_stats.longFunding
  let oldest_oracle_price := oldest_stats.baseOraclePrice
  let newest_short_funding := newest_stats.shortFunding
  let newest_long_funding := newest_stats.longFunding
  let newest_oracle_price := newest_stats.baseOraclePrice
  let raw_open_interest := newest_stats.openInterest
  let open_interest := lot_size_converter.base_size_lots_to_number raw_open_interest / 2
  let average_oracle_price := (oldest_oracle_price + newest_oracle_price) / 2
  let average_oracle_price := newest_oracle_price
  let start_funding := (oldest_long_funding + oldest_short_funding) / 2
  let end_funding := (newest_long_funding + newest_short_funding) / 2
  let funding_difference := end_funding - start_funding
  let funding_in_quote_decimals :=
    lot_size_converter.quote.shift_to_decimals funding_difference
  let base_price_in_base_lots := average_oracle_price * lot_size_converter.lot_size
  if base_price_in_base_lots = 0 then
    .error "DivisionByZero"
  else
    .ok { symbol := symbol
          rate := funding_in_quote_decimals / base_price_in_base_lots
          oracle_price := average_oracle_price
          open_interest := open_interest }

/-- Deduplication keeping the first occurrence of each element, the reference
description against which the dedup loop of `build_crank_instructions` is
compared. -/
def dedupFirst {α : Type} [DecidableEq α] : List α → List α
  | [] => []
  | a :: rest => a :: (dedupFirst rest).filter (fun x => decide (x ≠ a))

/-- Follows the spec's words for the crank assembler (spec sections 4.4 and
8): deduplicate the candidates while preserving first-seen order, sort by the
canonical byte-encoding, then truncate to `limit`. -/
def spec_crank_addresses (candidates : List PublicKey) (limit : ℚ) : List PublicKey :=
  (List.insertionSort sortKeyLe (dedupFirst candidates)).take (pythonInt limit).toNat

/-- Example converter: BTC/USDC with 6 decimals each, base lot size 100,
quote lot size 10. -/
def exConverter : LotSizeConverter :=
  { base := ⟨"BTC", 6⟩, base_lot_size := 100, quote := ⟨"USDC", 6⟩, quote_lot_size := 10 }

/-- Example cache with zero funding accumulators. -/
def exCache : PerpMarketCache := ⟨0, 0⟩

/-- Example all-zero perp account. -/
def exAccountZero : PerpAccount :=
  { base_position := 0, quote_position := 0, long_settled_funding := 0,
    short_settled_funding := 0, bids_quantity := 0, asks_quantity := 0,
    taker_base := 0, taker_quote := 0, mngo_accrued_value := 0,
    open_orders := ⟨[]⟩, lot_size_converter := exConverter }

/-- Example account holding only a quote position of `10^6` raw units. -/
def exAccountQuoteOnly : PerpAccount :=
  { exAccountZero with quote_position := 1000000 }

/-- Example account whose only nonzero field is an unprocessed taker fill. -/
def exAccountTaker : PerpAccount :=
  { exAccountZero with taker_base := 1 }

/-- Example loaded perp market details. -/
def exDetails : PerpMarketDetails := ⟨100, 10⟩

/-- Example builder over a loaded market; the invoking account's address
is 4. -/
def exBuilderLoaded : PerpMarketInstructionBuilder :=
  ⟨⟨"BTC-PERP", some exDetails⟩, 4⟩

/-- Example builder over a market whose on-chain details are absent. -/
def exBuilderUnloaded : PerpMarketInstructionBuilder :=
  ⟨⟨"ETH-PERP", none⟩, 7⟩

/-- Example funding statistics snapshot. -/
def exStats : PerpStats :=
  { shortFunding := 5, longFunding := 9, baseOraclePrice := 1, openInterest := 12 }

/-- Example order. -/
def exOrder : Order := ⟨1, 1, 42⟩

/-- Example converter whose instruments have zero decimals. -/
def exConverter0 : LotSizeConverter :=
  { base := ⟨"BTC", 0⟩, base_lot_size := 100, quote := ⟨"USDC", 0⟩, quote_lot_size := 10 }

/-- Example all-zero account over the zero-decimals converter. -/
def exAccountZero0 : PerpAccount :=
  { exAccountZero with lot_size_converter := exConverter0 }

/-- C3: for every account snapshot and every cache, `unsettled_funding`
returns the negation, scaled to quote decimals, of
`base_position * (short_funding - short_settled_funding)` when the base
position is short (negative), and of
`base_position * (long_funding - long_settled_funding)` otherwise. -/
theorem unsettled_funding_matches_spec (a : PerpAccount) (cache : PerpMarketCache) :
    a.unsettled_funding cache =
      a.lot_size_converter.quote.shift_to_decimals
        (-(if a.base_position < 0 then
            a.base_position * (cache.short_funding - a.short_settled_funding)
          else
            a.base_position * (cache.long_funding - a.long_settled_funding))) := by
  unfold PerpAccount.unsettled_funding Instrument.shift_to_decimals
  rw [neg_div]

/-- C4 (amended): `empty` holds iff `base_position`, `quote_position`,
`long_settled_funding`, `short_settled_funding` and the accrued MNGO value
are all exactly zero and `open_orders` is empty; the `bids_quantity`,
`asks_quantity`, `taker_base` and `taker_quote` fields are not consulted. -/
theorem perpAccount_empty_iff (a : PerpAccount) :
    a.empty = true ↔
      (a.base_position = 0 ∧ a.quote_position = 0 ∧ a.long_settled_funding = 0 ∧
        a.short_settled_funding = 0 ∧ a.mngo_accrued_value = 0 ∧
        a.open_orders.empty = true) := by
  unfold PerpAccount.empty
  split_ifs with h <;> simp [h]

/-- C4 (counterexample): an account whose only nonzero field is `taker_base`
is reported `empty`, so `empty` is not equivalent to all position, funding
and accrual fields (including `taker_base`) being zero. -/
theorem perpAccount_empty_counterexample :
    ¬ (exAccountTaker.empty = true ↔
        (exAccountTaker.base_position = 0 ∧ exAccountTaker.quote_position = 0 ∧
          exAccountTaker.long_settled_funding = 0 ∧
          exAccountTaker.short_settled_funding = 0 ∧
          exAccountTaker.bids_quantity = 0 ∧ exAccountTaker.asks_quantity = 0 ∧
          exAccountTaker.taker_base = 0 ∧ exAccountTaker.taker_quote = 0 ∧
          exAccountTaker.mngo_accrued_value = 0 ∧
          exAccountTaker.open_orders.empty = true)) := by
  decide

/-- C5: for every account snapshot, cache, and non-negative price (with the
non-negative lot size every on-chain market has), `liability_value` is
non-positive: it sums only the short base notional and the negative side of
the quote position including unsettled funding. -/
theorem liability_value_nonpos (a : PerpAccount) (cache : PerpMarketCache) (price : ℚ)
    (hprice : 0 ≤ price) (hlot : 0 ≤ a.lot_size_converter.base_lot_size) :
    a.liability_value cache price ≤ 0 := by
  unfold PerpAccount.liability_value Instrument.shift_to_decimals
  dsimp only
  have hpow : (0:ℚ) < 10 ^ a.lot_size_converter.quote.decimals := by positivity
  have hb : a.lot_size_converter.adjust_to_quote_decimals a.base_position < 0 →
      a.lot_size_converter.adjust_to_quote_decimals a.base_position *
        a.lot_size_converter.base_lot_size * price /
        10 ^ a.lot_size_converter.quote.decimals ≤ 0 := by
    intro h
    exact div_nonpos_of_nonpos_of_nonneg
      (mul_nonpos_of_nonpos_of_nonneg
        (mul_nonpos_of_nonpos_of_nonneg h.le hlot) hprice) hpow.le
  split_ifs with h1 h2 h3
  · have := hb h2; linarith
  · linarith
  · exact hb h3
  · exact le_refl 0

/-- C5 (witness): the all-zero account at price 0 has non-positive
liability value. -/
theorem liability_value_nonpos_witness :
    exAccountZero.liability_value exCache 0 ≤ 0 :=
  liability_value_nonpos exAccountZero exCache 0 (by norm_num) (by decide)

/-- C9: when there are no unprocessed events and `add_self` is false,
`_build_crank` returns the empty `CombinableInstructions` without
constructing a consume-events instruction, for every builder state and every
limit. -/
theorem build_crank_no_events (b : PerpMarketInstructionBuilder) (limit : ℚ) :
    PerpMarketOperations.build_crank b [] false limit =
      Except.ok CombinableInstructions.empty := rfl

/-- C2 (amended): for every account, cache, and price,
`asset_value + liability_value` equals the quote-shifted base notional plus
the (already shifted) quote position including unsettled funding; this equals
`current_value` whenever the quote instrument has zero decimals, but
`current_value` applies one further quote-decimals shift to the whole sum, so
the plain decomposition `asset + liability = current` does not hold in
general. -/
theorem asset_liability_decomposition (a : PerpAccount) (cache : PerpMarketCache)
    (price : ℚ) :
    (a.asset_value cache price + a.liability_value cache price =
      a.lot_size_converter.quote.shift_to_decimals
          (a.lot_size_converter.adjust_to_quote_decimals a.base_position *
            a.lot_size_converter.base_lot_size * price)
        + (a.lot_size_converter.quote.shift_to_decimals a.quote_position
            + a.unsettled_funding cache)) ∧
    (a.lot_size_converter.quote.decimals = 0 →
      a.asset_value cache price + a.liability_value cache price =
        a.current_value cache price) := by
  have key :
      a.asset_value cache price + a.liability_value cache price =
        a.lot_size_converter.quote.shift_to_decimals
            (a.lot_size_converter.adjust_to_quote_decimals a.base_position *
              a.lot_size_converter.base_lot_size * price)
          + (a.lot_size_converter.quote.shift_to_decimals a.quote_position
              + a.unsettled_funding cache) := by
    unfold PerpAccount.asset_value PerpAccount.liability_value
    dsimp only
    have hzero : a.lot_size_converter.adjust_to_quote_decimals a.base_position = 0 →
        a.lot_size_converter.quote.shift_to_decimals
          (a.lot_size_converter.adjust_to_quote_decimals a.base_position *
            a.lot_size_converter.base_lot_size * price) = 0 := by
      intro h
      rw [h]
      simp [Instrument.shift_to_decimals]
    split_ifs with h1 h2 h3 h4 h5 h6 h7 h8 <;>
      first
        | linarith
        | (have h0 : a.lot_size_converter.quote.shift_to_decimals
              (a.lot_size_converter.adjust_to_quote_decimals a.base_position *
                a.lot_size_converter.base_lot_size * price) = 0 := hzero (by linarith)
           linarith)
  refine ⟨key, fun hdec => ?_⟩
  rw [key]
  unfold PerpAccount.current_value
  dsimp only
  simp [Instrument.shift_to_decimals, hdec]

/-- C2 (counterexample): for an account holding only a raw quote position of
`10^6` with a 6-decimal quote instrument, `asset_value + liability_value`
is `1` while `current_value` is `10^-6`: the decomposition invariant fails. -/
theorem asset_liability_decomposition_counterexample :
    ¬ (exAccountQuoteOnly.asset_value exCache 0 + exAccountQuoteOnly.liability_value exCache 0 =
        exAccountQuoteOnly.current_value exCache 0) := by
  norm_num [PerpAccount.asset_value, PerpAccount.liability_value, PerpAccount.current_value,
    PerpAccount.unsettled_funding, Instrument.shift_to_decimals,
    LotSizeConverter.adjust_to_quote_decimals, exAccountQuoteOnly, exAccountZero, exCache,
    exConverter]

/-- C6: whenever the two snapshots carry identical `shortFunding` and
`longFunding` accumulators and the newest oracle price and lot size are
nonzero, `from_stats_data` returns a funding rate of exactly `0`; and in
every successful case the reported open interest is the newest
`openInterest` halved and converted through the lot size converter. -/
theorem from_stats_data_rate_and_open_interest (symbol : String)
    (c : LotSizeConverter) (oldest_stats newest_stats : PerpStats) :
    (∀ r, FundingRate.from_stats_data symbol c oldest_stats newest_stats = Except.ok r →
      r.open_interest = c.base_size_lots_to_number newest_stats.openInterest / 2) ∧
    (oldest_stats.shortFunding = newest_stats.shortFunding →
      oldest_stats.longFunding = newest_stats.longFunding →
      newest_stats.baseOraclePrice ≠ 0 → c.lot_size ≠ 0 →
      FundingRate.from_stats_data symbol c oldest_stats newest_stats =
        Except.ok { symbol := symbol, rate := 0,
                    oracle_price := newest_stats.baseOraclePrice,
                    open_interest :=
                      c.base_size_lots_to_number newest_stats.openInterest / 2 }) := by
  constructor
  · intro r h
    unfold FundingRate.from_stats_data at h
    dsimp only at h
    split at h
    · exact absurd h (by simp)
    · rw [Except.ok.injEq] at h
      rw [← h]
  · intro hshort hlong hprice hlot
    have hne : newest_stats.baseOraclePrice * c.lot_size ≠ 0 := mul_ne_zero hprice hlot
    unfold FundingRate.from_stats_data
    dsimp only
    rw [if_neg hne]
    have hdiff : (newest_stats.longFunding + newest_stats.shortFunding) / 2 -
        (oldest_stats.longFunding + oldest_stats.shortFunding) / 2 = 0 := by
      rw [hshort, hlong]; ring
    rw [hdiff]
    simp [Instrument.shift_to_decimals]

/-- C6 (witness): concrete snapshots with equal accumulators, oracle price
`1` and the example converter yield rate `0` and the halved converted open
interest. -/
theorem from_stats_data_witness :
    FundingRate.from_stats_data "BTC-PERP" exConverter exStats exStats =
      Except.ok { symbol := "BTC-PERP", rate := 0,
                  oracle_price := exStats.baseOraclePrice,
                  open_interest :=
                    exConverter.base_size_lots_to_number exStats.openInterest / 2 } :=
  (from_stats_data_rate_and_open_interest "BTC-PERP" exConverter exStats exStats).2
    rfl rfl (by decide) (by norm_num [LotSizeConverter.lot_size, exConverter])

/-- C7 (amended): the cancel-order, place-order, crank and cancel-all
builders raise whenever the perp market's underlying on-chain details are
absent and return normally when they are present; `build_redeem_instructions`
performs no such check and returns normally even when the details are
absent. -/
theorem builders_fail_fast_amended (order : Order) (ok_if_missing : Bool)
    (addresses : List PublicKey) (limit : ℚ)
    (bN bS : PerpMarketInstructionBuilder) (d : PerpMarketDetails)
    (hN : bN.perp_market.underlying_perp_market = none)
    (hS : bS.perp_market.underlying_perp_market = some d) :
    (bN.build_cancel_order_instructions order ok_if_missing =
      Except.error ("PerpMarket " ++ bN.perp_market.symbol ++ " has not been loaded.")) ∧
    (bN.build_place_order_instructions order =
      Except.error ("PerpMarket " ++ bN.perp_market.symbol ++ " has not been loaded.")) ∧
    (bN.build_crank_instructions addresses limit =
      Except.error ("PerpMarket " ++ bN.perp_market.symbol ++ " has not been loaded.")) ∧
    (bN.build_cancel_all_orders_instructions limit =
      Except.error ("PerpMarket " ++ bN.perp_market.symbol ++ " has not been loaded.")) ∧
    (bN.build_redeem_instructions = Except.ok [MangoInstruction.redeemAccruedMango]) ∧
    (bS.build_cancel_order_instructions order ok_if_missing =
      Except.ok [MangoInstruction.cancelPerpOrder order.client_id ok_if_missing]) ∧
    (bS.build_place_order_instructions order =
      Except.ok [MangoInstruction.placePerpOrder order.price order.quantity order.client_id]) ∧
    (bS.build_crank_instructions addresses limit =
      Except.ok [MangoInstruction.consumeEvents
        (crank_limited_addresses bS.account_address addresses limit) limit]) ∧
    (bS.build_cancel_all_orders_instructions limit =
      Except.ok [MangoInstruction.cancelAllPerpOrders limit]) ∧
    (bS.build_redeem_instructions = Except.ok [MangoInstruction.redeemAccruedMango]) := by
  unfold PerpMarketInstructionBuilder.build_cancel_order_instructions
    PerpMarketInstructionBuilder.build_place_order_instructions
    PerpMarketInstructionBuilder.build_crank_instructions
    PerpMarketInstructionBuilder.build_cancel_all_orders_instructions
    PerpMarketInstructionBuilder.build_redeem_instructions
  rw [hN, hS]
  exact ⟨rfl, rfl, rfl, rfl, rfl, rfl, rfl, rfl, rfl, rfl⟩

/-- C7 (witness): the guards fire on a concrete unloaded builder and pass on
a concrete loaded one. -/
theorem builders_fail_fast_witness :
    (exBuilderUnloaded.build_cancel_order_instructions exOrder false =
      Except.error
        ("PerpMarket " ++ exBuilderUnloaded.perp_market.symbol ++ " has not been loaded.")) ∧
    (exBuilderUnloaded.build_place_order_instructions exOrder =
      Except.error
        ("PerpMarket " ++ exBuilderUnloaded.perp_market.symbol ++ " has not been loaded.")) ∧
    (exBuilderUnloaded.build_crank_instructions [1, 2] 2 =
      Except.error
        ("PerpMarket " ++ exBuilderUnloaded.perp_market.symbol ++ " has not been loaded.")) ∧
    (exBuilderUnloaded.build_cancel_all_orders_instructions 2 =
      Except.error
        ("PerpMarket " ++ exBuilderUnloaded.perp_market.symbol ++ " has not been loaded.")) ∧
    (exBuilderUnloaded.build_redeem_instructions =
      Except.ok [MangoInstruction.redeemAccruedMango]) ∧
    (exBuilderLoaded.build_cancel_order_instructions exOrder false =
      Except.ok [MangoInstruction.cancelPerpOrder exOrder.client_id false]) ∧
    (exBuilderLoaded.build_place_order_instructions exOrder =
      Except.ok [MangoInstruction.placePerpOrder exOrder.price exOrder.quantity
        exOrder.client_id]) ∧
    (exBuilderLoaded.build_crank_instructions [1, 2] 2 =
      Except.ok [MangoInstruction.consumeEvents
        (crank_limited_addresses exBuilderLoaded.account_address [1, 2] 2) 2]) ∧
    (exBuilderLoaded.build_cancel_all_orders_instructions 2 =
      Except.ok [MangoInstruction.cancelAllPerpOrders 2]) ∧
    (exBuilderLoaded.build_redeem_instructions =
      Except.ok [MangoInstruction.redeemAccruedMango]) :=
  builders_fail_fast_amended exOrder false [1, 2] 2 exBuilderUnloaded exBuilderLoaded
    exDetails rfl rfl

/-- C7 (counterexample): `build_redeem_instructions` on a builder whose
underlying market details are absent does not raise - it returns a built
instruction - so not every instruction-building method fails fast on absent
details. -/
theorem build_redeem_no_guard_counterexample :
    exBuilderUnloaded.perp_market.underlying_perp_market = none ∧
    exBuilderUnloaded.build_redeem_instructions =
      Except.ok [MangoInstruction.redeemAccruedMango] :=
  ⟨rfl, rfl⟩

/-- The dedup loop of `build_crank_instructions` computes, for any starting
accumulator, the accumulator followed by the first-seen dedup of the
remaining elements not already present. -/
theorem dedupFirst_foldl {α : Type} [DecidableEq α] (l : List α) (acc : List α) :
    l.foldl (fun distinct a => if a ∈ distinct then distinct else distinct ++ [a]) acc =
      acc ++ (dedupFirst l).filter (fun x => decide (x ∉ acc)) := by
  induction l generalizing acc with
  | nil => simp [dedupFirst]
  | cons a l ih =>
    rw [List.foldl_cons]
    by_cases h : a ∈ acc
    · rw [if_pos h, ih]
      congr 1
      simp only [dedupFirst]
      rw [List.filter_cons, if_neg (by simp [h]), List.filter_filter]
      exact List.filter_congr (fun x hx => by
        by_cases hxa : x = a
        · subst hxa; simp [h]
        · simp [hxa])
    · rw [if_neg h, ih]
      simp only [dedupFirst]
      rw [List.filter_cons, if_pos (by simp [h]), List.filter_filter, List.append_assoc,
        List.singleton_append]
      congr 2
      exact List.filter_congr (fun x hx => by
        by_cases hxa : x = a
        · subst hxa; simp [h]
        · simp [hxa, List.mem_append])

/-- The distinct-address list built by `build_crank_instructions` is exactly
the first-seen dedup of the invoking account's address followed by the
candidate addresses. -/
theorem crank_distinct_eq_dedupFirst (account_address : PublicKey)
    (addresses : List PublicKey) :
    crank_distinct_addresses account_address addresses =
      dedupFirst (account_address :: addresses) := by
  unfold crank_distinct_addresses
  rw [dedupFirst_foldl]
  simp only [dedupFirst]
  rw [List.singleton_append]
  congr 1
  exact List.filter_congr (fun x hx => by simp)

/-- Taking `min n (length l)` elements is the same as taking `n`. -/
theorem take_min_length {α : Type} (l : List α) (n : ℕ) :
    l.take (min n l.length) = l.take n := by
  rcases Nat.le_total n l.length with h | h
  · rw [Nat.min_eq_left h]
  · rw [Nat.min_eq_right h, List.take_length, List.take_of_length_le h]

/-- Python `int()` on a non-negative integral decimal is the integer itself. -/
theorem pythonInt_natCast (n : ℕ) : pythonInt (n : ℚ) = n := by
  unfold pythonInt
  rw [if_neg (not_lt.mpr (by positivity))]
  exact Int.floor_natCast n

/-- The address list `build_crank_instructions` passes to the consume-events
instruction, for a positive integral limit `n`: dedup the self-prepended
candidates keeping first occurrences, truncate to `n`, then sort by the
canonical encoding. -/
theorem crank_limited_sort_take (account_address : PublicKey)
    (addresses : List PublicKey) (n : ℕ) :
    crank_limited_addresses account_address addresses (n : ℚ) =
      List.insertionSort sortKeyLe
        ((dedupFirst (account_address :: addresses)).take n) := by
  unfold crank_limited_addresses pythonSliceTo
  dsimp only
  rw [crank_distinct_eq_dedupFirst, pythonInt_natCast,
    if_pos (le_min (Int.natCast_nonneg n) (Int.natCast_nonneg _))]
  congr 1
  have h1 : (min (n : ℤ) ((dedupFirst (account_address :: addresses)).length : ℤ)).toNat
      = min n (dedupFirst (account_address :: addresses)).length := by omega
  rw [h1, take_min_length]

/-- C1 (amended): for every candidate address sequence and every integral
limit, the address list passed into the consume-events instruction equals the
result of prepending the invoking account's address to the candidates,
deduplicating while preserving first-seen order, truncating to `limit`, and
only then sorting by the canonical byte-encoding: the self account is always
included (first) whether or not it was requested, and truncation happens
before the canonical sort rather than after it. -/
theorem crank_addresses_amended (account_address : PublicKey)
    (addresses : List PublicKey) (n : ℕ) :
    crank_limited_addresses account_address addresses (n : ℚ) =
      List.insertionSort sortKeyLe
        ((dedupFirst (account_address :: addresses)).take n) :=
  crank_limited_sort_take account_address addresses n

/-- C1 (counterexample): for candidates `[A, B, A, C]` followed by the
requested self account `S` (as addresses `[1, 2, 1, 3, 4]` with `S = 4`) and
limit 2, the code produces the sort of the first two deduplicated entries
`[S, A]`, namely `[1, 4]`, not the first two entries `[1, 2]` of the sorted
deduplicated set - so the output is not the first `limit` elements of the
dedup-then-sort list. -/
theorem crank_addresses_counterexample :
    crank_limited_addresses 4 [1, 2, 1, 3, 4] 2 ≠ spec_crank_addresses [1, 2, 1, 3, 4] 2 := by
  decide

/-- C8: for every builder over a loaded market and every candidate list whose
(self-prepended) dedup exceeds the positive integral throttle `limit`,
`build_crank_instructions` does not raise: it returns a consume-events
instruction covering at most `limit` addresses. -/
theorem build_crank_instructions_throttled (b : PerpMarketInstructionBuilder)
    (d : PerpMarketDetails) (addresses : List PublicKey) (n : ℕ)
    (hloaded : b.perp_market.underlying_perp_market = some d) (hn : 0 < n)
    (hexceeds : n < (dedupFirst (b.account_address :: addresses)).length) :
    b.build_crank_instructions addresses (n : ℚ) =
        Except.ok [MangoInstruction.consumeEvents
          (crank_limited_addresses b.account_address addresses (n : ℚ)) (n : ℚ)] ∧
      (crank_limited_addresses b.account_address addresses (n : ℚ)).length ≤ n := by
  constructor
  · unfold PerpMarketInstructionBuilder.build_crank_instructions
    rw [hloaded]
  · rw [crank_limited_sort_take, List.length_insertionSort, List.length_take]
    exact min_le_left _ _

/-- C8 (witness): a loaded builder with three distinct candidate addresses
and limit 1 returns normally with a single-address instruction. -/
theorem build_crank_instructions_throttled_witness :
    exBuilderLoaded.build_crank_instructions [1, 2] ((1 : ℕ) : ℚ) =
        Except.ok [MangoInstruction.consumeEvents
          (crank_limited_addresses exBuilderLoaded.account_address [1, 2] ((1 : ℕ) : ℚ))
          ((1 : ℕ) : ℚ)] ∧
      (crank_limited_addresses exBuilderLoaded.account_address [1, 2] ((1 : ℕ) : ℚ)).length ≤ 1 :=
  build_crank_instructions_throttled exBuilderLoaded exDetails [1, 2] 1 rfl
    (by decide) (by decide)


/-- C10: `RoundToLotSizeElement.process` returns, in the original order,
exactly those orders whose rounded price and rounded quantity are both
nonzero, with price and quantity replaced by the rounded values (orders
already aligned pass through unchanged, which coincides with the updated
copy); orders whose rounded price or quantity is zero are removed. -/
theorem process_eq_filterMap (c : LotSizeConverter) (orders : List Order) :
    RoundToLotSizeElement.process c orders =
      orders.filterMap (fun order =>
        if c.round_quote order.price = 0 ∨ c.round_base order.quantity = 0 then
          none
        else
          some ((order.with_update_price (c.round_quote order.price)).with_update_quantity
            (c.round_base order.quantity))) := by
  unfold RoundToLotSizeElement.process
  have key : ∀ (l : List Order) (acc : List Order),
      l.foldl
        (fun new_orders order =>
          let new_price : ℚ := c.round_quote order.price
          let new_quantity : ℚ := c.round_base order.quantity
          let new_order : Order :=
            (order.with_update_price new_price).with_update_quantity new_quantity
          if new_order.price = 0 ∨ new_order.quantity = 0 then
            new_orders
          else if order.price ≠ new_order.price ∨ order.quantity ≠ new_order.quantity then
            new_orders ++ [new_order]
          else
            new_orders ++ [order]) acc =
      acc ++ l.filterMap (fun order =>
        if c.round_quote order.price = 0 ∨ c.round_base order.quantity = 0 then
          none
        else
          some ((order.with_update_price (c.round_quote order.price)).with_update_quantity
            (c.round_base order.quantity))) := by
    intro l
    induction l with
    | nil => intro acc; simp
    | cons o l ih =>
      intro acc
      simp only [List.foldl_cons, List.filterMap_cons, Order.with_update_price,
        Order.with_update_quantity] at ih ⊢
      by_cases h0 : c.round_quote o.price = 0 ∨ c.round_base o.quantity = 0
      · simp only [h0, if_true]
        exact ih acc
      · by_cases h1 : o.price ≠ c.round_quote o.price ∨ o.quantity ≠ c.round_base o.quantity
        · simp only [h0, h1, if_false, if_true, ite_false, ite_true]
          rw [ih]
          simp
        · simp only [h0, h1, if_false, ite_false]
          rw [ih]
          rw [not_or, not_ne_iff, not_ne_iff] at h1
          obtain ⟨h1a, h1b⟩ := h1
          cases o with
          | mk op oq oc =>
            dsimp only at h1a h1b ⊢
            rw [← h1a, ← h1b]
            simp
  exact key orders []

/-- C2 (witness): on a zero-decimals quote instrument the decomposition
`asset + liability = current` does hold at a concrete account, cache and
price. -/
theorem asset_liability_decomposition_witness :
    exAccountZero0.asset_value exCache 1 + exAccountZero0.liability_value exCache 1 =
      exAccountZero0.current_value exCache 1 :=
  (asset_liability_decomposition exAccountZero0 exCache 1).2 rfl

/-- C4 (witness): the all-zero account is reported empty via the amended
equivalence. -/
theorem perpAccount_empty_witness : exAccountZero.empty = true :=
  (perpAccount_empty_iff exAccountZero).mpr ⟨rfl, rfl, rfl, rfl, rfl, rfl⟩
